import Mathlib

/-!
Verification of the burning-ship fractal renderer
(`src/burning_ship_frac.rs`, `src/main.rs`, `src/painter.rs`).

Floating-point model: Rust `f64` values are embedded as `F64`, exact
rational numbers extended with the IEEE special values `inf`, `neginf`
and `nan`.  Arithmetic on finite values is exact (rounding and overflow
of large finite values are idealized away); the propagation rules for
the special values follow IEEE 754, which is what the infinity
short-circuit claims are about.  Signed zero is not distinguished.
Machine integers (`u8`, `u16`) are embedded as `Nat` with explicit
`% 2^w` where wrap-around matters.
-/

/-- Embedding of `f64`: exact rationals plus the IEEE special values. -/
inductive F64 where
  | finite (q : ℚ)
  | inf
  | neginf
  | nan
deriving DecidableEq, Repr

namespace F64

/-- Embeds `f64::is_infinite`. -/
def isInfinite : F64 → Bool
  | inf => true
  | neginf => true
  | _ => false

/-- Embeds `f64::is_finite`. -/
def isFinite : F64 → Bool
  | finite _ => true
  | _ => false

/-- IEEE negation. -/
def neg : F64 → F64
  | finite a => finite (-a)
  | inf => neginf
  | neginf => inf
  | nan => nan

/-- IEEE addition (exact on finite values). -/
def add : F64 → F64 → F64
  | nan, _ => nan
  | _, nan => nan
  | finite a, finite b => finite (a + b)
  | finite _, inf => inf
  | finite _, neginf => neginf
  | inf, finite _ => inf
  | neginf, finite _ => neginf
  | inf, inf => inf
  | neginf, neginf => neginf
  | inf, neginf => nan
  | neginf, inf => nan

/-- IEEE subtraction, `x - y = x + (-y)`. -/
def sub (x y : F64) : F64 := add x (neg y)

/-- IEEE multiplication (exact on finite values, `inf * 0 = nan`). -/
def mul : F64 → F64 → F64
  | nan, _ => nan
  | _, nan => nan
  | finite a, finite b => finite (a * b)
  | inf, finite b => if b = 0 then nan else if 0 < b then inf else neginf
  | neginf, finite b => if b = 0 then nan else if 0 < b then neginf else inf
  | finite a, inf => if a = 0 then nan else if 0 < a then inf else neginf
  | finite a, neginf => if a = 0 then nan else if 0 < a then neginf else inf
  | inf, inf => inf
  | inf, neginf => neginf
  | neginf, inf => neginf
  | neginf, neginf => inf

/-- IEEE division (exact on finite values; the model's sole zero acts as `+0`). -/
def div : F64 → F64 → F64
  | nan, _ => nan
  | _, nan => nan
  | finite a, finite b =>
      if b = 0 then (if a = 0 then nan else if 0 < a then inf else neginf)
      else finite (a / b)
  | finite _, inf => finite 0
  | finite _, neginf => finite 0
  | inf, finite b => if 0 ≤ b then inf else neginf
  | neginf, finite b => if 0 ≤ b then neginf else inf
  | inf, inf => nan
  | inf, neginf => nan
  | neginf, inf => nan
  | neginf, neginf => nan

/-- IEEE absolute value. -/
def abs : F64 → F64
  | finite a => finite |a|
  | inf => inf
  | neginf => inf
  | nan => nan

/-- IEEE `<` comparison: any comparison involving `nan` is false. -/
def blt : F64 → F64 → Bool
  | finite a, finite b => a < b
  | finite _, inf => true
  | finite _, neginf => false
  | finite _, nan => false
  | inf, _ => false
  | neginf, finite _ => true
  | neginf, inf => true
  | neginf, neginf => false
  | neginf, nan => false
  | nan, _ => false

/-- Embeds `f64::powf` restricted to natural-number exponents, the only way the
source calls it (the exponent is a `u16` cast to `f64`, which is exact).
`pow(x, 0) = 1` for every `x`, including `nan`, as in IEEE 754. -/
def powfNat : F64 → ℕ → F64
  | finite q, n => finite (q ^ n)
  | inf, n => if n = 0 then finite 1 else inf
  | neginf, n => if n = 0 then finite 1 else if n % 2 = 1 then neginf else inf
  | nan, n => if n = 0 then finite 1 else nan

end F64

/-! ## `src/burning_ship_frac.rs` -/

/-- Source constant `MAX_ITERATIONS : u8 = 100`. -/
def MAX_ITERATIONS : ℕ := 100

/-- Source `struct ComplexNumber` with fields `a : f64, b : f64`. -/
structure ComplexNumber where
  a : F64
  b : F64
deriving DecidableEq, Repr

/-- Source `fn sqr`, squaring shorthand `x * x`. -/
def sqr (x : F64) : F64 := F64.mul x x

/-- Source `calculate_next_z`: one step of the burning-ship recurrence, with the
infinity short-circuit of lines 40–45 of `burning_ship_frac.rs`. -/
def calculate_next_z (constant prev : ComplexNumber) : ComplexNumber :=
  let sqr_a := sqr prev.a
  let sqr_b := sqr prev.b
  if sqr_a.isInfinite || sqr_b.isInfinite then
    { a := F64.inf, b := F64.inf }
  else
    let new_a := F64.add (F64.sub sqr_a sqr_b) constant.a
    let new_b := F64.add (F64.abs (F64.mul (F64.mul (F64.finite 2) prev.a) prev.b)) constant.b
    { a := new_a, b := new_b }

/-- Source `orbit_contained`: the orbit test of lines 60–67. -/
def orbit_contained (z : ComplexNumber) : Bool :=
  match z.a.isInfinite || z.b.isInfinite with
  | true => false
  | false => F64.blt (F64.add (sqr z.a) (sqr z.b)) (F64.finite 4)

/-- The `while i < MAX_ITERATIONS && orbit_contained(&z)` loop of
`get_orbit_rate`, with explicit fuel (the loop body increments `i`, so
fuel `MAX_ITERATIONS - i` always suffices). -/
def orbitLoop (constant : ComplexNumber) : ComplexNumber → ℕ → ℕ → ℕ
  | _, i, 0 => i
  | z, i, fuel + 1 =>
      if i < MAX_ITERATIONS ∧ orbit_contained z = true then
        orbitLoop constant (calculate_next_z constant z) (i + 1) fuel
      else
        i

/-- Source `get_orbit_rate`: escape-time of the pixel `(x, y)`. -/
def get_orbit_rate (x y : ℕ) (x_step_size y_step_size a_floor b_floor : F64) : ℕ :=
  let starting_a := F64.add a_floor (F64.mul (F64.finite x) x_step_size)
  let starting_b := F64.add b_floor (F64.mul (F64.finite y) y_step_size)
  let constant : ComplexNumber := { a := starting_a, b := starting_b }
  let z : ComplexNumber := { a := starting_a, b := starting_b }
  orbitLoop constant z 0 MAX_ITERATIONS

/-- Source `calc_zoomed_ranges`: the zoom-window recurrence of lines 105–133. -/
def calc_zoomed_ranges (starting_width starting_height : F64)
    (starting_x_range starting_y_range : F64 × F64)
    (frame_number : ℕ) (zoom_rate : F64) : (F64 × F64) × (F64 × F64) :=
  let x_floor := starting_x_range.1
  let x_ceil := starting_x_range.2
  let y_floor := starting_y_range.1
  let y_ceil := starting_y_range.2
  let scale := F64.powfNat zoom_rate frame_number
  let curr_width := F64.mul scale starting_width
  let curr_height := F64.mul scale starting_height
  let focus_x := F64.div (F64.sub starting_width curr_width) (F64.finite 2)
  let focus_y := F64.div (F64.sub starting_height curr_height) (F64.finite 2)
  let x_range := (F64.add focus_x x_floor, F64.add (F64.neg focus_x) x_ceil)
  let y_range := (F64.add focus_y y_floor, F64.add (F64.neg focus_y) y_ceil)
  (x_range, y_range)

/-- Source `map_row`: maps one enumerated row of pixels to escape times (lines 142–167). -/
def map_row (curr_row_tuple : ℕ × List ℕ) (x_step_size y_step_size : F64)
    (x_range y_range : F64 × F64) : List ℕ :=
  let row_index := curr_row_tuple.1
  let curr_row := curr_row_tuple.2
  let x_floor := x_range.1
  let y_floor := y_range.1
  curr_row.enum.map (fun curr_cell_tuple =>
    get_orbit_rate curr_cell_tuple.1 row_index x_step_size y_step_size x_floor y_floor)

/-- Source `gen_burning_ship_fractal`: builds the zero grid and maps every row (lines 172–189). -/
def gen_burning_ship_fractal (img_width img_height : ℕ)
    (x_range y_range : F64 × F64) (x_step_size y_step_size : F64) : List (List ℕ) :=
  let grid : List (List ℕ) := List.replicate img_height (List.replicate img_width 0)
  grid.enum.map (fun curr_row_tuple =>
    map_row curr_row_tuple x_step_size y_step_size x_range y_range)

/-- Source `calc_step_size`: plane units per pixel (lines 194–207). -/
def calc_step_size (img_width img_height : ℕ) (x_range y_range : F64 × F64) :
    F64 × F64 :=
  let step_width := F64.abs (F64.sub x_range.2 x_range.1)
  let step_height := F64.abs (F64.sub y_range.2 y_range.1)
  (F64.div step_width (F64.finite img_width), F64.div step_height (F64.finite img_height))

/-- Source `calc_box_height_width` (lines 213–223). -/
def calc_box_height_width (starting_x_range starting_y_range : F64 × F64) :
    F64 × F64 :=
  (F64.abs (F64.sub starting_x_range.2 starting_x_range.1),
   F64.abs (F64.sub starting_y_range.2 starting_y_range.1))

/-- Source `build_frame`: the composed frame pipeline (lines 233–278). -/
def build_frame (img_width img_height : ℕ)
    (starting_x_range starting_y_range : F64 × F64)
    (frame_number : ℕ) (zoom_rate : F64) : List (List ℕ) :=
  let wh := calc_box_height_width starting_x_range starting_y_range
  let ranges := calc_zoomed_ranges wh.1 wh.2 starting_x_range starting_y_range
    frame_number zoom_rate
  let steps := calc_step_size img_width img_height ranges.1 ranges.2
  gen_burning_ship_fractal img_width img_height ranges.1 ranges.2 steps.1 steps.2

/-! ## `src/main.rs` -/

/-- Source `map_frames_to_fractals`: Rayon's `par_iter().map(...).collect()` is an
order-preserving parallel map over pure computations, so it is embedded as
`List.map`; positional correspondence is independent of worker scheduling. -/
def map_frames_to_fractals (img_width img_height : ℕ)
    (starting_x_range starting_y_range : F64 × F64)
    (zoom_rate : F64) (frames : List ℕ) : List (List (List ℕ)) :=
  frames.map (fun i =>
    build_frame img_width img_height starting_x_range starting_y_range i zoom_rate)

/-- One burst of `main`'s loop: `first_frame = i * chunk_size` and
`last_frame = first_frame + chunk_size` in `u16` wrapping arithmetic
(`chunk_size = 4`), collected from the Rust range `first_frame..last_frame`. -/
def burst_frames (i : ℕ) : List ℕ :=
  let first_frame := i * 4 % 65536
  let last_frame := (first_frame + 4) % 65536
  List.range' first_frame (last_frame - first_frame)

/-- The absolute frame numbers produced by `for i in 0..bursts`, in order. -/
def frame_numbers (bursts : ℕ) : List ℕ :=
  (List.range bursts).flatMap burst_frames

/-- Rust's `str::parse::<u16>`: optional leading `+`, at least one ASCII
digit, no other characters, value at most `65535`. -/
def parse_u16 (s : String) : Option ℕ :=
  let chars := match s.data with
    | '+' :: rest => rest
    | cs => cs
  if chars = [] then none
  else if chars.all (fun c => c.isDigit) then
    let v := chars.foldl (fun acc c => acc * 10 + (c.toNat - 48)) 0
    if v ≤ 65535 then some v else none
  else none

/-- The argument handling of `main` (lines 127–137): `args.get(1)` missing
or unparseable leads to `process::exit(1)` (modelled as `.error 1`), else
the parsed burst count flows to the burst loop (modelled as `.ok`). -/
def handle_burst_arg (args : List String) : Except ℕ ℕ :=
  match args.get? 1 with
  | none => Except.error 1
  | some s =>
      match parse_u16 s with
      | none => Except.error 1
      | some n => Except.ok n

/-! ## `src/painter.rs` -/

/-- Embeds `image::Rgb<u8>`. -/
structure Rgb where
  r : ℕ
  g : ℕ
  b : ℕ
deriving DecidableEq, Repr

/-- Source `generate_random_palette`: the `rand`-driven `generate_random_color`
calls are embedded as an ambient stream `colors : ℕ → Rgb` of draws.  The
loop bound `number_of_colors + 1` is `u8` arithmetic, hence the `% 256`;
each iteration inserts at index `i` (which is the current length). -/
def generate_random_palette (colors : ℕ → Rgb) (number_of_colors : ℕ) : List Rgb :=
  (List.range ((number_of_colors + 1) % 256)).foldl
    (fun color_vec i => color_vec.insertIdx i (colors i)) []

/-- Source `paint_frame` pixel loop: each cell indexes `palette.get(*cell).unwrap()`;
a failing `unwrap` (index out of bounds) is `none`.  The buffer writes are
represented by the resulting matrix of colors. -/
def paint_frame (frame : List (List ℕ)) (palette : List Rgb) :
    Option (List (List Rgb)) :=
  frame.mapM (fun row => row.mapM (fun cell => palette.get? cell))

/-- The decimal digit characters of `n`, most significant first. -/
def dec_chars (n : ℕ) : List Char :=
  ((Nat.digits 10 n).reverse).map Nat.digitChar

/-- Zero padding to width `w`, as `format!` does with the `08` spec. -/
def zero_pad (w : ℕ) (s : List Char) : List Char :=
  List.replicate (w - s.length) '0' ++ s

/-- The file name component `format!("{:08}", frame_number)` of
`save_img_buff`. -/
def frame_name (frame_number : ℕ) : List Char :=
  zero_pad 8 (dec_chars frame_number)

/-- The target path of `save_img_buff` (line 69 of `painter.rs`). -/
def save_path (frame_number : ℕ) : String :=
  "frames/" ++ String.mk (frame_name frame_number) ++ ".png"

/-! ## Helper lemmas -/

lemma orbitLoop_succ (c z : ComplexNumber) (i fuel : ℕ) :
    orbitLoop c z i (fuel + 1) =
      if i < MAX_ITERATIONS ∧ orbit_contained z = true then
        orbitLoop c (calculate_next_z c z) (i + 1) fuel
      else i := rfl

lemma orbitLoop_le (c : ComplexNumber) :
    ∀ (fuel : ℕ) (z : ComplexNumber) (i : ℕ), i ≤ MAX_ITERATIONS →
      orbitLoop c z i fuel ≤ MAX_ITERATIONS := by
  intro fuel
  induction fuel with
  | zero => intro z i h; simpa [orbitLoop] using h
  | succ n ih =>
      intro z i h
      rw [orbitLoop_succ]
      split
      · next hc => exact ih _ (i + 1) hc.1
      · exact h

lemma orbitLoop_ge (c : ComplexNumber) :
    ∀ (fuel : ℕ) (z : ComplexNumber) (i : ℕ), i ≤ orbitLoop c z i fuel := by
  intro fuel
  induction fuel with
  | zero => intro z i; simp [orbitLoop]
  | succ n ih =>
      intro z i
      rw [orbitLoop_succ]
      split
      · exact le_trans (Nat.le_succ i) (ih _ (i + 1))
      · exact le_refl i

lemma get_orbit_rate_le (x y : ℕ) (x_step_size y_step_size a_floor b_floor : F64) :
    get_orbit_rate x y x_step_size y_step_size a_floor b_floor ≤ MAX_ITERATIONS := by
  unfold get_orbit_rate
  exact orbitLoop_le _ _ _ _ (Nat.zero_le _)

/-! ## Claims -/

/-- C1: for every pixel coordinate and every step/floor input,
`get_orbit_rate` (a total function, hence terminating) returns a value in
`[0, 100]`, and returns `0` exactly when the initial constant `C` already
fails the orbit test `orbit_contained` (the `|C|² < 4` check of the source)
on the very first check. -/
theorem c1_escape_time_bounded (x y : ℕ)
    (x_step_size y_step_size a_floor b_floor : F64) :
    get_orbit_rate x y x_step_size y_step_size a_floor b_floor ≤ 100 ∧
    (get_orbit_rate x y x_step_size y_step_size a_floor b_floor = 0 ↔
      orbit_contained
        { a := F64.add a_floor (F64.mul (F64.finite x) x_step_size),
          b := F64.add b_floor (F64.mul (F64.finite y) y_step_size) } = false) := by
  refine ⟨get_orbit_rate_le x y x_step_size y_step_size a_floor b_floor, ?_⟩
  unfold get_orbit_rate
  set C : ComplexNumber :=
    { a := F64.add a_floor (F64.mul (F64.finite x) x_step_size),
      b := F64.add b_floor (F64.mul (F64.finite y) y_step_size) } with hC
  rw [show MAX_ITERATIONS = 99 + 1 from rfl, orbitLoop_succ]
  cases horb : orbit_contained C with
  | false => simp [horb, MAX_ITERATIONS]
  | true =>
      have hge := orbitLoop_ge C 99 (calculate_next_z C C) 1
      simp only [horb, MAX_ITERATIONS]
      norm_num
      rw [← hC]
      omega

/-- C2: whenever either component of the previous `Z` is infinite, the
squares computed by `calculate_next_z` are infinite, so the short-circuit
fires and the next `Z` is forced to `(∞, ∞)` instead of being computed
from the arithmetic. -/
theorem c2_infinity_short_circuit (constant prev : ComplexNumber)
    (h : prev.a.isInfinite = true ∨ prev.b.isInfinite = true) :
    calculate_next_z constant prev = { a := F64.inf, b := F64.inf } := by
  rcases prev with ⟨pa, pb⟩
  rcases h with h | h <;>
    cases pa <;> cases pb <;>
      simp_all [calculate_next_z, sqr, F64.mul, F64.isInfinite]

/-- Witness for C2 at `prev = (∞, 0)`. -/
theorem c2_infinity_short_circuit_witness :
    (ComplexNumber.mk F64.inf (F64.finite 0)).a.isInfinite = true ∧
    calculate_next_z { a := F64.finite 0, b := F64.finite 0 }
      { a := F64.inf, b := F64.finite 0 } = { a := F64.inf, b := F64.inf } :=
  ⟨rfl, c2_infinity_short_circuit _ _ (Or.inl rfl)⟩

lemma F64.powfNat_zero (x : F64) : F64.powfNat x 0 = F64.finite 1 := by
  cases x <;> simp [F64.powfNat]

lemma F64.add_zero_left (x : F64) : F64.add (F64.finite 0) x = x := by
  cases x <;> simp [F64.add]

lemma F64.add_finite (a b : ℚ) :
    F64.add (F64.finite a) (F64.finite b) = F64.finite (a + b) := rfl

lemma F64.neg_finite (a : ℚ) : F64.neg (F64.finite a) = F64.finite (-a) := rfl

lemma F64.sub_finite (a b : ℚ) :
    F64.sub (F64.finite a) (F64.finite b) = F64.finite (a - b) := by
  simp [F64.sub, F64.neg_finite, F64.add_finite, sub_eq_add_neg]

lemma F64.mul_finite (a b : ℚ) :
    F64.mul (F64.finite a) (F64.finite b) = F64.finite (a * b) := rfl

lemma F64.abs_finite (a : ℚ) : F64.abs (F64.finite a) = F64.finite |a| := rfl

lemma F64.div_finite (a b : ℚ) (hb : b ≠ 0) :
    F64.div (F64.finite a) (F64.finite b) = F64.finite (a / b) := by
  simp [F64.div, hb]

lemma F64.powfNat_finite (q : ℚ) (n : ℕ) :
    F64.powfNat (F64.finite q) n = F64.finite (q ^ n) := rfl

lemma F64.blt_finite (a b : ℚ) :
    F64.blt (F64.finite a) (F64.finite b) = decide (a < b) := rfl

/-- C6: with finite box dimensions, `calc_zoomed_ranges` at frame index 0
has scale `powf(zoom_rate, 0) = 1`, so the focus offsets are exactly 0 and
the base ranges are returned unchanged, for every zoom rate. -/
theorem c6_frame_zero_base_range (starting_width starting_height : F64)
    (hw : starting_width.isFinite = true) (hh : starting_height.isFinite = true)
    (starting_x_range starting_y_range : F64 × F64) (zoom_rate : F64) :
    calc_zoomed_ranges starting_width starting_height starting_x_range
      starting_y_range 0 zoom_rate = (starting_x_range, starting_y_range) := by
  cases starting_width with
  | finite w =>
      cases starting_height with
      | finite ht =>
          simp [calc_zoomed_ranges, F64.powfNat_zero, F64.mul_finite,
            F64.sub_finite, F64.neg_finite, F64.div_finite, F64.add_zero_left]
      | inf => simp [F64.isFinite] at hh
      | neginf => simp [F64.isFinite] at hh
      | nan => simp [F64.isFinite] at hh
  | inf => simp [F64.isFinite] at hw
  | neginf => simp [F64.isFinite] at hw
  | nan => simp [F64.isFinite] at hw

/-- Witness for C6 on the concrete box `1 × 1` with ranges `(0,1)`. -/
theorem c6_frame_zero_base_range_witness :
    (F64.finite 1).isFinite = true ∧
    calc_zoomed_ranges (F64.finite 1) (F64.finite 1)
      (F64.finite 0, F64.finite 1) (F64.finite 0, F64.finite 1) 0
      (F64.finite (96 / 100)) =
      ((F64.finite 0, F64.finite 1), (F64.finite 0, F64.finite 1)) :=
  ⟨rfl, c6_frame_zero_base_range (F64.finite 1) (F64.finite 1) rfl rfl
    (F64.finite 0, F64.finite 1) (F64.finite 0, F64.finite 1)
    (F64.finite (96 / 100))⟩

/-- Width of a plane range, `high - low`. -/
def range_width (r : F64 × F64) : F64 := F64.sub r.2 r.1

/-- Midpoint of a plane range, `(low + high) / 2`. -/
def range_midpoint (r : F64 × F64) : F64 :=
  F64.div (F64.add r.1 r.2) (F64.finite 2)

lemma calc_zoomed_ranges_finite (W H xf xc yf yc s : ℚ) (k : ℕ) :
    calc_zoomed_ranges (F64.finite W) (F64.finite H)
      (F64.finite xf, F64.finite xc) (F64.finite yf, F64.finite yc) k
      (F64.finite s) =
      ((F64.finite ((W - s ^ k * W) / 2 + xf),
        F64.finite (-((W - s ^ k * W) / 2) + xc)),
       (F64.finite ((H - s ^ k * H) / 2 + yf),
        F64.finite (-((H - s ^ k * H) / 2) + yc))) := by
  simp [calc_zoomed_ranges, F64.powfNat_finite, F64.mul_finite, F64.sub_finite,
    F64.div_finite, F64.neg_finite, F64.add_finite]

/-- C7: at zoom rate `0.96` the window of `calc_zoomed_ranges` strictly
shrinks in width and height as the frame index grows, and each returned
range keeps the midpoint of the corresponding base range (exactly, in the
exact-arithmetic model).  The box dimensions are the ones `build_frame`
passes in, `xc - xf` and `yc - yf`. -/
theorem c7_zoom_strict_shrink_centered (xf xc yf yc : ℚ) (n m : ℕ)
    (hnm : n < m) (hx : xf < xc) (hy : yf < yc) :
    F64.blt
      (range_width (calc_zoomed_ranges (F64.finite (xc - xf))
        (F64.finite (yc - yf)) (F64.finite xf, F64.finite xc)
        (F64.finite yf, F64.finite yc) m (F64.finite (96 / 100))).1)
      (range_width (calc_zoomed_ranges (F64.finite (xc - xf))
        (F64.finite (yc - yf)) (F64.finite xf, F64.finite xc)
        (F64.finite yf, F64.finite yc) n (F64.finite (96 / 100))).1) = true ∧
    F64.blt
      (range_width (calc_zoomed_ranges (F64.finite (xc - xf))
        (F64.finite (yc - yf)) (F64.finite xf, F64.finite xc)
        (F64.finite yf, F64.finite yc) m (F64.finite (96 / 100))).2)
      (range_width (calc_zoomed_ranges (F64.finite (xc - xf))
        (F64.finite (yc - yf)) (F64.finite xf, F64.finite xc)
        (F64.finite yf, F64.finite yc) n (F64.finite (96 / 100))).2) = true ∧
    range_midpoint (calc_zoomed_ranges (F64.finite (xc - xf))
      (F64.finite (yc - yf)) (F64.finite xf, F64.finite xc)
      (F64.finite yf, F64.finite yc) m (F64.finite (96 / 100))).1 =
      range_midpoint (F64.finite xf, F64.finite xc) ∧
    range_midpoint (calc_zoomed_ranges (F64.finite (xc - xf))
      (F64.finite (yc - yf)) (F64.finite xf, F64.finite xc)
      (F64.finite yf, F64.finite yc) m (F64.finite (96 / 100))).2 =
      range_midpoint (F64.finite yf, F64.finite yc) := by
  have hpow : (96 / 100 : ℚ) ^ m < (96 / 100 : ℚ) ^ n :=
    pow_lt_pow_right_of_lt_one₀ (by norm_num) (by norm_num) hnm
  have hW : (0 : ℚ) < xc - xf := sub_pos.2 hx
  have hH : (0 : ℚ) < yc - yf := sub_pos.2 hy
  have hmulW := mul_lt_mul_of_pos_right hpow hW
  have hmulH := mul_lt_mul_of_pos_right hpow hH
  rw [calc_zoomed_ranges_finite, calc_zoomed_ranges_finite]
  refine ⟨?_, ?_, ?_, ?_⟩
  · simp only [range_width, F64.sub_finite, F64.blt_finite, decide_eq_true_eq]
    linarith
  · simp only [range_width, F64.sub_finite, F64.blt_finite, decide_eq_true_eq]
    linarith
  · simp only [range_midpoint, F64.add_finite]
    rw [F64.div_finite _ _ (by norm_num), F64.div_finite _ _ (by norm_num)]
    congr 1
    ring
  · simp only [range_midpoint, F64.add_finite]
    rw [F64.div_finite _ _ (by norm_num), F64.div_finite _ _ (by norm_num)]
    congr 1
    ring

/-- Witness for C7 at the unit box, frame indices `0 < 1`. -/
theorem c7_zoom_strict_shrink_centered_witness :
    (0 : ℕ) < 1 ∧ (0 : ℚ) < 1 ∧
    (F64.blt
      (range_width (calc_zoomed_ranges (F64.finite ((1 : ℚ) - 0))
        (F64.finite ((1 : ℚ) - 0)) (F64.finite 0, F64.finite 1)
        (F64.finite 0, F64.finite 1) 1 (F64.finite (96 / 100))).1)
      (range_width (calc_zoomed_ranges (F64.finite ((1 : ℚ) - 0))
        (F64.finite ((1 : ℚ) - 0)) (F64.finite 0, F64.finite 1)
        (F64.finite 0, F64.finite 1) 0 (F64.finite (96 / 100))).1) = true ∧
    F64.blt
      (range_width (calc_zoomed_ranges (F64.finite ((1 : ℚ) - 0))
        (F64.finite ((1 : ℚ) - 0)) (F64.finite 0, F64.finite 1)
        (F64.finite 0, F64.finite 1) 1 (F64.finite (96 / 100))).2)
      (range_width (calc_zoomed_ranges (F64.finite ((1 : ℚ) - 0))
        (F64.finite ((1 : ℚ) - 0)) (F64.finite 0, F64.finite 1)
        (F64.finite 0, F64.finite 1) 0 (F64.finite (96 / 100))).2) = true ∧
    range_midpoint (calc_zoomed_ranges (F64.finite ((1 : ℚ) - 0))
      (F64.finite ((1 : ℚ) - 0)) (F64.finite 0, F64.finite 1)
      (F64.finite 0, F64.finite 1) 1 (F64.finite (96 / 100))).1 =
      range_midpoint (F64.finite 0, F64.finite 1) ∧
    range_midpoint (calc_zoomed_ranges (F64.finite ((1 : ℚ) - 0))
      (F64.finite ((1 : ℚ) - 0)) (F64.finite 0, F64.finite 1)
      (F64.finite 0, F64.finite 1) 1 (F64.finite (96 / 100))).2 =
      range_midpoint (F64.finite 0, F64.finite 1)) :=
  ⟨Nat.zero_lt_one, zero_lt_one,
    c7_zoom_strict_shrink_centered 0 1 0 1 0 1 Nat.zero_lt_one zero_lt_one
      zero_lt_one⟩

lemma gen_burning_ship_fractal_shape (img_width img_height : ℕ)
    (x_range y_range : F64 × F64) (x_step_size y_step_size : F64) :
    (gen_burning_ship_fractal img_width img_height x_range y_range
      x_step_size y_step_size).length = img_height ∧
    ∀ row ∈ gen_burning_ship_fractal img_width img_height x_range y_range
      x_step_size y_step_size,
      row.length = img_width ∧ ∀ v ∈ row, v ≤ MAX_ITERATIONS := by
  constructor
  · simp [gen_burning_ship_fractal]
  · intro row hrow
    rw [gen_burning_ship_fractal, List.mem_map] at hrow
    obtain ⟨t, ht, hteq⟩ := hrow
    rw [List.mem_enum_iff_getElem?] at ht
    rw [List.getElem?_replicate] at ht
    have ht2 : t.2 = List.replicate img_width 0 := by
      by_cases hlt : t.1 < img_height
      · simpa [hlt] using ht.symm
      · simp [hlt] at ht
    constructor
    · simp [← hteq, map_row, ht2]
    · intro v hv
      rw [← hteq, map_row] at hv
      simp only [List.mem_map] at hv
      obtain ⟨ct, _, hveq⟩ := hv
      rw [← hveq]
      exact get_orbit_rate_le _ _ _ _ _ _

/-- C3: for positive image dimensions (and in fact for all of them), the
grid returned by `build_frame` has exactly `img_height` rows of exactly
`img_width` cells each, and every stored escape-time value is at most
`MAX_ITERATIONS = 100`, for every base range, frame index and zoom rate. -/
theorem c3_build_frame_grid_invariant (img_width img_height : ℕ)
    (hw : 0 < img_width) (hh : 0 < img_height)
    (starting_x_range starting_y_range : F64 × F64)
    (frame_number : ℕ) (zoom_rate : F64) :
    (build_frame img_width img_height starting_x_range starting_y_range
      frame_number zoom_rate).length = img_height ∧
    ∀ row ∈ build_frame img_width img_height starting_x_range
      starting_y_range frame_number zoom_rate,
      row.length = img_width ∧ ∀ v ∈ row, v ≤ 100 := by
  unfold build_frame
  exact gen_burning_ship_fractal_shape img_width img_height _ _ _ _

/-- Witness for C3 on a 2×1 image. -/
theorem c3_build_frame_grid_invariant_witness :
    (0 : ℕ) < 2 ∧ (0 : ℕ) < 1 ∧
    ((build_frame 2 1 (F64.finite 0, F64.finite 1) (F64.finite 0, F64.finite 1)
      0 (F64.finite (96 / 100))).length = 1 ∧
    ∀ row ∈ build_frame 2 1 (F64.finite 0, F64.finite 1)
      (F64.finite 0, F64.finite 1) 0 (F64.finite (96 / 100)),
      row.length = 2 ∧ ∀ v ∈ row, v ≤ 100) :=
  ⟨by decide, by decide,
    c3_build_frame_grid_invariant 2 1 (by decide) (by decide)
      (F64.finite 0, F64.finite 1) (F64.finite 0, F64.finite 1) 0
      (F64.finite (96 / 100))⟩

/-- C4: the grid sequence of `map_frames_to_fractals` corresponds
positionally to the input frame indices — position `i` of the result is
`build_frame` of the `i`-th input index, and for a contiguous range
starting at `first_frame` it is `build_frame` of `first_frame + i`.
Rayon's `par_iter().map().collect()` guarantees exactly this positional
(not completion-order) correspondence, which the embedding reflects as a
map over the index list. -/
theorem c4_frames_positional (img_width img_height : ℕ)
    (starting_x_range starting_y_range : F64 × F64) (zoom_rate : F64)
    (frames : List ℕ) (first_frame cnt i : ℕ) (hi : i < cnt) :
    (map_frames_to_fractals img_width img_height starting_x_range
      starting_y_range zoom_rate frames)[i]? =
      (frames[i]?).map (fun n => build_frame img_width img_height
        starting_x_range starting_y_range n zoom_rate) ∧
    (map_frames_to_fractals img_width img_height starting_x_range
      starting_y_range zoom_rate (List.range' first_frame cnt))[i]? =
      some (build_frame img_width img_height starting_x_range
        starting_y_range (first_frame + i) zoom_rate) := by
  constructor
  · simp [map_frames_to_fractals]
  · simp [map_frames_to_fractals, List.getElem?_range', hi]

/-- Witness for C4 at `frames = [5,6,7,8]`, `first_frame = 5`, `i = 2`. -/
theorem c4_frames_positional_witness :
    (2 : ℕ) < 4 ∧
    ((map_frames_to_fractals 2 1 (F64.finite 0, F64.finite 1)
      (F64.finite 0, F64.finite 1) (F64.finite (96 / 100)) [5, 6, 7, 8])[2]? =
      ([5, 6, 7, 8][2]?).map (fun n => build_frame 2 1
        (F64.finite 0, F64.finite 1) (F64.finite 0, F64.finite 1) n
        (F64.finite (96 / 100))) ∧
    (map_frames_to_fractals 2 1 (F64.finite 0, F64.finite 1)
      (F64.finite 0, F64.finite 1) (F64.finite (96 / 100))
      (List.range' 5 4))[2]? =
      some (build_frame 2 1 (F64.finite 0, F64.finite 1)
        (F64.finite 0, F64.finite 1) (5 + 2) (F64.finite (96 / 100)))) :=
  ⟨by decide,
    c4_frames_positional 2 1 (F64.finite 0, F64.finite 1)
      (F64.finite 0, F64.finite 1) (F64.finite (96 / 100)) [5, 6, 7, 8] 5 4 2
      (by decide)⟩

lemma frame_numbers_succ (b : ℕ) :
    frame_numbers (b + 1) = frame_numbers b ++ burst_frames b := by
  unfold frame_numbers
  rw [List.range_succ b, List.flatMap_append]
  simp

lemma burst_frames_eq_range' (i : ℕ) (hi : i < 16383) :
    burst_frames i = List.range' (4 * i) 4 := by
  show List.range' (i * 4 % 65536)
    ((i * 4 % 65536 + 4) % 65536 - i * 4 % 65536) = List.range' (4 * i) 4
  congr 1 <;> omega

lemma frame_numbers_eq_range (b : ℕ) (hb : b ≤ 16383) :
    frame_numbers b = List.range (4 * b) := by
  induction b with
  | zero => rfl
  | succ n ih =>
      rw [frame_numbers_succ, ih (by omega),
        burst_frames_eq_range' n (by omega)]
      rw [show 4 * (n + 1) = 4 * n + 4 from by ring, List.range_add,
        List.range'_eq_map_range]

lemma dec_chars_length_le (n k : ℕ) (h : n < 10 ^ k) :
    (dec_chars n).length ≤ k := by
  unfold dec_chars
  rw [List.length_map, List.length_reverse]
  by_cases hn : n = 0
  · simp [hn]
  · rw [Nat.digits_len 10 n (by norm_num) hn]
    have := Nat.log_lt_of_lt_pow hn h
    omega

lemma frame_name_length (n : ℕ) (h : n < 10 ^ 8) :
    (frame_name n).length = 8 := by
  unfold frame_name zero_pad
  rw [List.length_append, List.length_replicate]
  have := dec_chars_length_le n 8 h
  omega

/-- C5 (amended): for every burst count `b ≤ 16383` with chunk size 4, the
absolute frame numbers produced across all bursts are exactly
`0, 1, …, 4·b − 1` — `burst_index * 4 + offset`, strictly increasing, no
gaps, no duplicates — and every frame is persisted at
`frames/<8-digit zero-padded number>.png`.  (At `b = 16384` the `u16`
computation `first_frame + chunk_size` wraps, so the claim fails there;
see the counterexample.) -/
theorem c5_burst_frame_numbers (b : ℕ) (hb : b ≤ 16383) :
    frame_numbers b = List.range (4 * b) ∧
    List.Pairwise (· < ·) (frame_numbers b) ∧
    ∀ n ∈ frame_numbers b,
      save_path n = "frames/" ++ String.mk (frame_name n) ++ ".png" ∧
      (frame_name n).length = 8 := by
  have heq := frame_numbers_eq_range b hb
  refine ⟨heq, ?_, ?_⟩
  · rw [heq]; exact List.pairwise_lt_range _
  · intro n hn
    rw [heq, List.mem_range] at hn
    refine ⟨rfl, frame_name_length n ?_⟩
    calc n < 4 * b := hn
    _ ≤ 4 * 16383 := by omega
    _ < 10 ^ 8 := by norm_num

/-- Witness for C5 at `b = 3` (the spec's own example: 12 frames `0..11`). -/
theorem c5_burst_frame_numbers_witness :
    (3 : ℕ) ≤ 16383 ∧
    (frame_numbers 3 = List.range (4 * 3) ∧
    List.Pairwise (· < ·) (frame_numbers 3) ∧
    ∀ n ∈ frame_numbers 3,
      save_path n = "frames/" ++ String.mk (frame_name n) ++ ".png" ∧
      (frame_name n).length = 8) :=
  ⟨by decide, c5_burst_frame_numbers 3 (by decide)⟩

/-- Counterexample to C5 as stated for arbitrary burst counts: at
`b = 16384` the last burst computes `last_frame = 16383 * 4 + 4 = 65536`,
which wraps to `0` in `u16`, so its Rust range `65532..0` is empty and the
produced frame numbers are not `0..4·b`. -/
theorem c5_burst_frame_numbers_counterexample :
    frame_numbers 16384 ≠ List.range (4 * 16384) := by
  have hlast : burst_frames 16383 = [] := by decide
  have h1 : frame_numbers 16384 = List.range 65532 := by
    rw [show (16384 : ℕ) = 16383 + 1 from rfl, frame_numbers_succ, hlast,
      frame_numbers_eq_range 16383 (by omega)]
    simp
  rw [h1]
  intro h
  have := congrArg List.length h
  simp [List.length_range] at this

/-- C8: missing or unparseable burst argument leads to termination with
exit status 1 (non-zero) before any frame work; a parseable argument
reaches the burst loop with the parsed count. -/
theorem c8_argument_error_exit (args : List String) :
    (args[1]? = none →
      handle_burst_arg args = Except.error 1 ∧ (1 : ℕ) ≠ 0) ∧
    (∀ s, args[1]? = some s → parse_u16 s = none →
      handle_burst_arg args = Except.error 1 ∧ (1 : ℕ) ≠ 0) ∧
    (∀ s n, args[1]? = some s → parse_u16 s = some n →
      handle_burst_arg args = Except.ok n) := by
  refine ⟨?_, ?_, ?_⟩
  · intro h
    simp [handle_burst_arg, h]
  · intro s hs hp
    simp [handle_burst_arg, hs, hp]
  · intro s n hs hp
    simp [handle_burst_arg, hs, hp]

/-- Witness for C8 with no positional argument. -/
theorem c8_argument_error_exit_witness :
    handle_burst_arg ["fractal"] = Except.error 1 ∧ (1 : ℕ) ≠ 0 :=
  (c8_argument_error_exit ["fractal"]).1 rfl

lemma palette_foldl_eq_map (colors : ℕ → Rgb) (m : ℕ) :
    (List.range m).foldl (fun color_vec i => color_vec.insertIdx i (colors i))
      [] = (List.range m).map colors := by
  induction m with
  | zero => rfl
  | succ k ih =>
      rw [List.range_succ, List.foldl_append, ih, List.map_append]
      simp only [List.foldl_cons, List.foldl_nil, List.map_cons, List.map_nil]
      have h := List.insertIdx_length_self (List.map colors (List.range k))
        (colors k)
      simp only [List.length_map, List.length_range] at h
      exact h

lemma generate_random_palette_eq (colors : ℕ → Rgb) (n : ℕ) :
    generate_random_palette colors n =
      (List.range ((n + 1) % 256)).map colors :=
  palette_foldl_eq_map colors ((n + 1) % 256)

lemma mapM_getElem_isSome (p : List Rgb) :
    ∀ row : List ℕ, (∀ v ∈ row, v < p.length) →
      ∃ r, row.mapM (fun cell => p.get? cell) = some r := by
  intro row
  induction row with
  | nil => intro _; exact ⟨[], rfl⟩
  | cons v t ih =>
      intro hv
      obtain ⟨r, hr⟩ := ih (fun w hw => hv w (List.mem_cons_of_mem v hw))
      have hvlt : v < p.length := hv v (List.mem_cons_self v t)
      have hc : p.get? v = some (p.get ⟨v, hvlt⟩) := List.get?_eq_get hvlt
      refine ⟨p.get ⟨v, hvlt⟩ :: r, ?_⟩
      rw [List.mapM_cons, hc, hr]
      rfl

/-- C9: `generate_random_palette 100` has exactly 101 colors, and when
every grid value is at most 100 the palette lookup in the pixel loop of
`paint_frame` always succeeds (the `unwrap` on `palette.get` never
fails). -/
theorem c9_palette_lookup_safe (colors : ℕ → Rgb) (frame : List (List ℕ))
    (hvals : ∀ row ∈ frame, ∀ v ∈ row, v ≤ 100) :
    (generate_random_palette colors 100).length = 101 ∧
    ∃ img, paint_frame frame (generate_random_palette colors 100) = some img := by
  have hlen : (generate_random_palette colors 100).length = 101 := by
    rw [generate_random_palette_eq]
    simp
  refine ⟨hlen, ?_⟩
  unfold paint_frame
  induction frame with
  | nil => exact ⟨[], rfl⟩
  | cons row t ih =>
      obtain ⟨img, himg⟩ := ih (fun r hr => hvals r (List.mem_cons_of_mem row hr))
      obtain ⟨r, hr⟩ := mapM_getElem_isSome (generate_random_palette colors 100)
        row (fun v hv => by
          have := hvals row (List.mem_cons_self row t) v hv
          omega)
      refine ⟨r :: img, ?_⟩
      rw [List.mapM_cons, hr, himg]
      rfl

/-- Witness for C9 on the grid `[[0, 100]]` with a constant color stream. -/
theorem c9_palette_lookup_safe_witness :
    (∀ row ∈ [[0, 100]], ∀ v ∈ row, v ≤ 100) ∧
    ((generate_random_palette (fun _ => Rgb.mk 0 0 0) 100).length = 101 ∧
      ∃ img, paint_frame [[0, 100]]
        (generate_random_palette (fun _ => Rgb.mk 0 0 0) 100) = some img) :=
  ⟨by decide, c9_palette_lookup_safe (fun _ => Rgb.mk 0 0 0) [[0, 100]]
    (by decide)⟩

/-- C10: `generate_random_palette n` yields `n + 1` colors for every
`n ≤ 254`, but at `n = 255` the `u8` loop bound `number_of_colors + 1`
wraps to `0`, the loop body never runs, and the function returns an empty
palette rather than 256 colors. -/
theorem c10_palette_u8_overflow (colors : ℕ → Rgb) (n : ℕ) (hn : n ≤ 254) :
    (generate_random_palette colors n).length = n + 1 ∧
    (generate_random_palette colors 255).length = 0 := by
  rw [generate_random_palette_eq, generate_random_palette_eq]
  constructor
  · rw [Nat.mod_eq_of_lt (by omega)]
    simp
  · simp

/-- Witness for C10 at `n = 254`. -/
theorem c10_palette_u8_overflow_witness :
    (254 : ℕ) ≤ 254 ∧
    ((generate_random_palette (fun _ => Rgb.mk 0 0 0) 254).length = 255 ∧
      (generate_random_palette (fun _ => Rgb.mk 0 0 0) 255).length = 0) :=
  ⟨by decide, c10_palette_u8_overflow (fun _ => Rgb.mk 0 0 0) 254 (by decide)⟩
